import Mathlib

set_option maxRecDepth 8000

/-!
Verification of the path-sandboxing core of `lesson-07-capstone-chatbot/file_operations.py`.

The Python module is embedded shallowly:

* `pathlib.PurePosixPath` values become `PyPath` (an absolute flag plus the
  list of path segments pathlib keeps after parsing);
* `Path.resolve()` is the lexical elimination of `..` segments (the sandbox
  is assumed to contain no symlinks, and all resolved paths are absolute
  because they are joined onto the absolute documents root);
* the filesystem becomes an association list from canonical absolute segment
  lists to entries (`Entry.file content mtime` or `Entry.dir`); file bytes on
  disk are the UTF-8 encoding of the content string, and "now" is an explicit
  parameter where the code reads clocks;
* every operation returns a result structure mirroring the dict the Python
  code builds (`status` is the string `"success"`, `"error"` or
  `"security_error"`), and exceptions caught by the operations' handlers
  become the corresponding error branches.
-/

/-- Python `pathlib.PurePosixPath`: an absolute flag plus the parsed path
segments.  pathlib's parsing drops empty and `.` components but keeps `..`. -/
structure PyPath where
  absolute : Bool
  segs : List String
deriving DecidableEq

/-- Does the second character list start with the first?  The character-level
model of Python `str.startswith`. -/
def startsWithChars : List Char → List Char → Bool
  | [], _ => true
  | _ :: _, [] => false
  | a :: as, b :: bs => a == b && startsWithChars as bs

/-- Python `s.startswith(pre)`. -/
def strStarts (s pre : String) : Bool := startsWithChars pre.data s.data

/-- Python `s.endswith(suf)`. -/
def strEnds (s suf : String) : Bool := startsWithChars suf.data.reverse s.data.reverse

/-- Split a character list at a separator character, keeping empty pieces,
as Python `str.split(sep)` does. -/
def splitChar (c : Char) : List Char → List (List Char)
  | [] => [[]]
  | a :: as =>
    if a == c then [] :: splitChar c as
    else
      match splitChar c as with
      | [] => [[a]]
      | g :: gs => (a :: g) :: gs

/-- The segments `PurePosixPath` keeps from a path string: split on `/` and
drop empty and `.` components (`..` is kept and handled only by `resolve`). -/
def parseSegs (s : String) : List String :=
  ((splitChar '/' s.data).map (fun cs => String.mk cs)).filter
    (fun t => !(t == "" || t == "."))

/-- Parse a path string the way `PurePosixPath` does. -/
def parsePath (s : String) : PyPath :=
  { absolute := strStarts s "/", segs := parseSegs s }

/-- pathlib's `/` join: an absolute right operand replaces the left operand. -/
def joinPath (base rel : PyPath) : PyPath :=
  if rel.absolute then rel
  else { absolute := base.absolute, segs := base.segs ++ rel.segs }

/-- `Path.resolve()` on an absolute, symlink-free path: eliminate `..`
segments against a left accumulator (`/..` stays at `/`). -/
def resolveSegs (acc : List String) : List String → List String
  | [] => acc
  | s :: rest =>
    if s == ".." then resolveSegs acc.dropLast rest
    else resolveSegs (acc ++ [s]) rest

/-- Resolve a root-joined path; the result is always absolute. -/
def resolvePath (p : PyPath) : PyPath :=
  { absolute := true, segs := resolveSegs [] p.segs }

/-- Python `str(path)` for a `PurePosixPath`. -/
def pathStr (p : PyPath) : String :=
  if p.absolute then "/" ++ String.intercalate "/" p.segs
  else if p.segs.isEmpty then "." else String.intercalate "/" p.segs

/-- Segment-boundary-aware containment: does the second segment list start
with the first?  This is the comparison the spec demands (and the Python code
does not perform). -/
def startsSegs : List String → List String → Bool
  | [], _ => true
  | _ :: _, [] => false
  | a :: as, b :: bs => a == b && startsSegs as bs

/-- `validate_path` from `file_operations.py`: join the caller-supplied
string onto the documents root, resolve it, and accept exactly when the
resolved path's string form starts with the root's string form
(`str(full_path).startswith(str(DOCUMENTS_ROOT.resolve()))`).  The inner
`SecurityError` is re-wrapped by the function's own `except Exception`
handler, which is why the message is the `Invalid path` one. -/
def validate_path (root : List String) (file_path : String) : Except String PyPath :=
  let full_path := resolvePath (joinPath { absolute := true, segs := root } (parsePath file_path))
  if strStarts (pathStr full_path) (pathStr (resolvePath { absolute := true, segs := root })) then
    Except.ok full_path
  else
    Except.error ("Invalid path '" ++ file_path ++ "': Access denied: Path '"
      ++ file_path ++ "' is outside documents folder")

/-- `ensure_markdown_extension` from `file_operations.py`. -/
def ensure_markdown_extension (filename : String) : String :=
  if !(strEnds filename ".md") then filename ++ ".md" else filename

/-- Python `needle in hay` on strings, at the character-list level. -/
def occursIn (needle : List Char) : List Char → Bool
  | [] => needle == []
  | b :: bs => startsWithChars needle (b :: bs) || occursIn needle bs

/-- Python `needle in hay` for strings (substring containment). -/
def strIn (needle hay : String) : Bool := occursIn needle.data hay.data

/-- Python `str.lower()` (character-wise; ASCII case mapping). -/
def toLowerStr (s : String) : String := ⟨s.data.map Char.toLower⟩

/-- Python `str.strip()`: drop leading and trailing whitespace. -/
def stripStr (s : String) : String :=
  ⟨((s.data.dropWhile Char.isWhitespace).reverse.dropWhile Char.isWhitespace).reverse⟩

/-- Python `str.splitlines()` for `\n`-separated text: a trailing newline
produces no trailing empty line, and the empty string has no lines. -/
def splitlines (s : String) : List String :=
  if s == "" then []
  else
    let parts := (splitChar '\n' s.data).map (fun cs => String.mk cs)
    if strEnds s "\n" then parts.dropLast else parts

/-- Python `enumerate(lines, i)`. -/
def numberLines (i : Nat) : List String → List (Nat × String)
  | [] => []
  | l :: ls => (i, l) :: numberLines (i + 1) ls

/-- Python `len(content.split())`: the number of maximal whitespace-free
runs, counted with an in-word flag. -/
def countWordsAux : List Char → Bool → Nat
  | [], _ => 0
  | c :: cs, inw =>
    if c.isWhitespace then countWordsAux cs false
    else (if inw then 0 else 1) + countWordsAux cs true

def countWords (s : String) : Nat := countWordsAux s.data false

/-- Non-overlapping occurrence counting, scanning left to right while
skipping `k` characters after a hit; models Python `str.count` for a
non-empty needle (started with skip `0`). -/
def countOccAux (needle : List Char) : List Char → Nat → Nat
  | [], _ => 0
  | _ :: cs, Nat.succ k => countOccAux needle cs k
  | c :: cs, 0 =>
    if startsWithChars needle (c :: cs) then 1 + countOccAux needle cs (needle.length - 1)
    else countOccAux needle cs 0

/-- Python `hay.count(needle)`. -/
def countSub (hay needle : String) : Nat :=
  if needle == "" then hay.length + 1 else countOccAux needle.data hay.data 0

/-- UTF-8 byte length of a string: the on-disk `st_size` of a file whose
content is the string (the module writes files with `encoding='utf-8'`). -/
def utf8Len (s : String) : Nat := (s.data.map Char.utf8Size).sum

/-- A filesystem entry: a regular file with decoded text content and a
modification time (seconds), or a directory. -/
inductive Entry
  | file (content : String) (mtime : Nat)
  | dir
deriving DecidableEq

/-- The sandbox filesystem: an association list from canonical absolute
segment lists to entries.  The path `[]` (the POSIX root `/`) always exists
as a directory. -/
structure FS where
  entries : List (List String × Entry)
deriving DecidableEq

/-- Canonicalize a raw absolute segment list (the kernel resolves `..` when
the OS touches a path; no symlinks are modelled). -/
def canon (p : List String) : List String := resolveSegs [] p

def FS.lookup (fs : FS) (p : List String) : Option Entry :=
  if p = [] then some Entry.dir
  else (fs.entries.find? (fun x => x.1 == p)).map (fun x => x.2)

/-- Python `path.exists()` (no symlinks, so `..` resolves lexically). -/
def FS.existsPath (fs : FS) (p : List String) : Bool :=
  (fs.lookup (canon p)).isSome

/-- Python `path.is_file()`. -/
def FS.isFile (fs : FS) (p : List String) : Bool :=
  match fs.lookup (canon p) with
  | some (Entry.file _ _) => true
  | _ => false

/-- Python `path.is_dir()`. -/
def FS.isDir (fs : FS) (p : List String) : Bool :=
  match fs.lookup (canon p) with
  | some Entry.dir => true
  | _ => false

/-- Python `open(path).read()` (succeeds only on files). -/
def FS.readFile (fs : FS) (p : List String) : Option String :=
  match fs.lookup (canon p) with
  | some (Entry.file c _) => some c
  | _ => none

/-- mtime of a file, for `stat().st_mtime`. -/
def FS.mtimeOf (fs : FS) (p : List String) : Option Nat :=
  match fs.lookup (canon p) with
  | some (Entry.file _ m) => some m
  | _ => none

/-- Store an entry at a path, replacing any previous entry there. -/
def FS.setEntry (fs : FS) (p : List String) (e : Entry) : FS :=
  ⟨(canon p, e) :: fs.entries.filter (fun x => !(x.1 == canon p))⟩

/-- Remove the entry at a path (`path.unlink()`). -/
def FS.removePath (fs : FS) (p : List String) : FS :=
  ⟨fs.entries.filter (fun x => !(x.1 == canon p))⟩

/-- Relocate an entry and everything below it (`shutil.move` /
`Path.rename`); both arguments are canonical. -/
def FS.movePath (fs : FS) (src dst : List String) : FS :=
  ⟨fs.entries.map (fun x =>
    if startsSegs src x.1 then (dst ++ x.1.drop src.length, x.2) else x)⟩

/-- `Path.mkdir(parents=True, exist_ok=True)`: walk the prefixes of `rest`
below `pref`, creating missing directories; fail (`FileExistsError`) when a
component exists as a regular file.  On a well-formed filesystem a failure
happens before any directory has been created, so the failing Python call
has no effect; the model returns `none` accordingly. -/
def mkdirSeq (fs : FS) (pref : List String) : List String → Option FS
  | [] => some fs
  | s :: rest =>
    match fs.lookup (pref ++ [s]) with
    | some Entry.dir => mkdirSeq fs (pref ++ [s]) rest
    | some (Entry.file _ _) => none
    | none => mkdirSeq (fs.setEntry (pref ++ [s]) Entry.dir) (pref ++ [s]) rest

def FS.mkdirParents (fs : FS) (p : List String) : Option FS :=
  mkdirSeq fs [] (canon p)

/-- `path.relative_to(root)` followed by `str(...)`: purely lexical; raises
`ValueError` (modelled as `none`) when the root's parts are not a prefix of
the path's parts. -/
def relative_to (p : PyPath) (root : List String) : Option String :=
  if p.absolute && startsSegs root p.segs then
    some (String.intercalate "/" (p.segs.drop root.length))
  else none

/-- Python `path.name`: the last segment (empty for the root). -/
def lastSeg (p : List String) : String := p.getLastD ""

/-- Result structure for `read_file`. -/
structure ReadResult where
  status : String
  error : Option String := none
  filename : Option String := none
  content : Option String := none
  size : Option Nat := none
  lines : Option Nat := none
deriving DecidableEq

/-- Result structure for `create_file` / `update_file`. -/
structure WriteResult where
  status : String
  error : Option String := none
  content_length : Option Nat := none
  new_content_length : Option Nat := none
deriving DecidableEq

/-- Result structure for `delete_file`. -/
structure DeleteResult where
  status : String
  error : Option String := none
  deleted_size : Option Nat := none
deriving DecidableEq

/-- Result structure for `rename_file`, `move_file` and `copy_file`. -/
structure MoveResult where
  status : String
  error : Option String := none
  destination : Option String := none
deriving DecidableEq

/-- `read_file` from `file_operations.py`. -/
def read_file (root : List String) (fs : FS) (filename : String) : ReadResult :=
  let filename := ensure_markdown_extension filename
  match validate_path root filename with
  | Except.error e => { status := "security_error", error := some e }
  | Except.ok file_path =>
    if !(fs.existsPath file_path.segs) then
      { status := "error", error := some ("File '" ++ filename ++ "' does not exist") }
    else if !(fs.isFile file_path.segs) then
      { status := "error", error := some ("'" ++ filename ++ "' is not a file") }
    else
      match fs.readFile file_path.segs with
      | some content =>
        { status := "success", filename := some filename, content := some content,
          size := some content.length, lines := some (splitlines content).length }
      | none => { status := "error", error := some "Failed to read file" }

/-- `create_file` from `file_operations.py`.  Note the source creates the
parent directories *before* the already-exists check. -/
def create_file (root : List String) (fs : FS) (now : Nat)
    (filename content : String) : WriteResult × FS :=
  let filename := ensure_markdown_extension filename
  match validate_path root filename with
  | Except.error e => ({ status := "security_error", error := some e }, fs)
  | Except.ok file_path =>
    match fs.mkdirParents file_path.segs.dropLast with
    | none => ({ status := "error", error := some "Failed to create file" }, fs)
    | some fs1 =>
      if fs1.existsPath file_path.segs then
        ({ status := "error", error := some ("File '" ++ filename ++ "' already exists") }, fs1)
      else
        ({ status := "success", content_length := some content.length },
         fs1.setEntry file_path.segs (Entry.file content now))

/-- `update_file` from `file_operations.py`.  `replace` writes directly; the
other modes read the existing content first.  Writing to (or reading from) a
directory raises and is caught by the generic handler. -/
def update_file (root : List String) (fs : FS) (now : Nat)
    (filename content mode : String) : WriteResult × FS :=
  let filename := ensure_markdown_extension filename
  match validate_path root filename with
  | Except.error e => ({ status := "security_error", error := some e }, fs)
  | Except.ok file_path =>
    if !(fs.existsPath file_path.segs) then
      ({ status := "error", error := some ("File '" ++ filename ++ "' does not exist") }, fs)
    else if !(mode == "replace" || mode == "append" || mode == "prepend") then
      ({ status := "error",
         error := some ("Invalid mode '" ++ mode ++ "'. Use 'replace', 'append', or 'prepend'") }, fs)
    else if mode == "replace" then
      if fs.isFile file_path.segs then
        ({ status := "success", new_content_length := some content.length },
         fs.setEntry file_path.segs (Entry.file content now))
      else ({ status := "error", error := some "Failed to update file" }, fs)
    else
      match fs.readFile file_path.segs with
      | none => ({ status := "error", error := some "Failed to update file" }, fs)
      | some existing_content =>
        let new_content :=
          if mode == "append" then existing_content ++ "\n" ++ content
          else content ++ "\n" ++ existing_content
        ({ status := "success", new_content_length := some new_content.length },
         fs.setEntry file_path.segs (Entry.file new_content now))

/-- `delete_file` from `file_operations.py`; `deleted_size` is the on-disk
byte size recorded before deletion. -/
def delete_file (root : List String) (fs : FS) (filename : String) : DeleteResult × FS :=
  let filename := ensure_markdown_extension filename
  match validate_path root filename with
  | Except.error e => ({ status := "security_error", error := some e }, fs)
  | Except.ok file_path =>
    if !(fs.existsPath file_path.segs) then
      ({ status := "error", error := some ("File '" ++ filename ++ "' does not exist") }, fs)
    else if !(fs.isFile file_path.segs) then
      ({ status := "error", error := some ("'" ++ filename ++ "' is not a file") }, fs)
    else
      match fs.readFile file_path.segs with
      | some content =>
        ({ status := "success", deleted_size := some (utf8Len content) },
         fs.removePath file_path.segs)
      | none => ({ status := "error", error := some "Failed to delete file" }, fs)

/-- `rename_file` from `file_operations.py`.  The computed new path is
re-validated through `str(new_path.relative_to(DOCUMENTS_ROOT))`; when
`relative_to` raises `ValueError` (new path not lexically under the root,
e.g. an absolute `new_name`), the generic `except Exception` handler reports
a plain `error` status. -/
def rename_file (root : List String) (fs : FS) (old_name new_name : String) : MoveResult × FS :=
  match validate_path root old_name with
  | Except.error e => ({ status := "security_error", error := some e }, fs)
  | Except.ok old_path =>
    if !(fs.existsPath old_path.segs) then
      ({ status := "error", error := some ("'" ++ old_name ++ "' does not exist") }, fs)
    else
      let new_name2 := if fs.isFile old_path.segs then ensure_markdown_extension new_name
                       else new_name
      let new_path := joinPath { absolute := true, segs := old_path.segs.dropLast }
        (parsePath new_name2)
      match relative_to new_path root with
      | none =>
        ({ status := "error",
           error := some "Failed to rename: path is not in the subpath of the documents root" }, fs)
      | some rel =>
        match validate_path root rel with
        | Except.error e => ({ status := "security_error", error := some e }, fs)
        | Except.ok _ =>
          if fs.existsPath new_path.segs then
            ({ status := "error", error := some ("'" ++ new_name2 ++ "' already exists") }, fs)
          else
            ({ status := "success" }, fs.movePath old_path.segs (canon new_path.segs))

/-- The tail of `move_file` once the final destination path is known:
re-validate through `str(dest_path.relative_to(DOCUMENTS_ROOT))`, create the
destination's parent directories, check destination-already-exists, then
`shutil.move`. -/
def moveFinish (root : List String) (fs : FS) (sp dest : PyPath) : MoveResult × FS :=
  match relative_to dest root with
  | none =>
    ({ status := "error",
       error := some "Failed to move file: path is not in the subpath of the documents root" }, fs)
  | some rel =>
    match validate_path root rel with
    | Except.error e => ({ status := "security_error", error := some e }, fs)
    | Except.ok _ =>
      match fs.mkdirParents dest.segs.dropLast with
      | none => ({ status := "error", error := some "Failed to move file" }, fs)
      | some fs1 =>
        if fs1.existsPath dest.segs then
          ({ status := "error",
             error := some ("Destination '"
               ++ String.intercalate "/" (dest.segs.drop root.length)
               ++ "' already exists") }, fs1)
        else
          ({ status := "success",
             destination := some (String.intercalate "/" (dest.segs.drop root.length)) },
           fs1.movePath sp.segs (canon dest.segs))

/-- `move_file` from `file_operations.py`.  Destination parent directories
are created *before* the destination-already-exists check; the final
`shutil.move` is the last action. -/
def move_file (root : List String) (fs : FS) (source destination : String) : MoveResult × FS :=
  match validate_path root source with
  | Except.error e => ({ status := "security_error", error := some e }, fs)
  | Except.ok source_path =>
    if !(fs.existsPath source_path.segs) then
      ({ status := "error", error := some ("Source '" ++ source ++ "' does not exist") }, fs)
    else
      match validate_path root destination with
      | Except.error e => ({ status := "security_error", error := some e }, fs)
      | Except.ok dp =>
        let destStep : Except String PyPath :=
          if fs.existsPath dp.segs && fs.isDir dp.segs then
            Except.ok { absolute := true, segs := dp.segs ++ [lastSeg source_path.segs] }
          else if fs.isFile source_path.segs then
            validate_path root (ensure_markdown_extension destination)
          else Except.ok dp
        match destStep with
        | Except.error e => ({ status := "security_error", error := some e }, fs)
        | Except.ok dest_path => moveFinish root fs source_path dest_path

/-- `copy_file` from `file_operations.py`: the `.md` suffix is forced onto
the destination only; the source string is used as given.  `shutil.copy2`
preserves the modification time. -/
def copy_file (root : List String) (fs : FS) (source destination : String) : MoveResult × FS :=
  match validate_path root source with
  | Except.error e => ({ status := "security_error", error := some e }, fs)
  | Except.ok source_path =>
    if !(fs.existsPath source_path.segs) then
      ({ status := "error", error := some ("Source file '" ++ source ++ "' does not exist") }, fs)
    else if !(fs.isFile source_path.segs) then
      ({ status := "error", error := some ("'" ++ source ++ "' is not a file") }, fs)
    else
      let destination := ensure_markdown_extension destination
      match validate_path root destination with
      | Except.error e => ({ status := "security_error", error := some e }, fs)
      | Except.ok dest_path =>
        match fs.mkdirParents dest_path.segs.dropLast with
        | none => ({ status := "error", error := some "Failed to copy file" }, fs)
        | some fs1 =>
          if fs1.existsPath dest_path.segs then
            ({ status := "error",
               error := some ("Destination '" ++ destination ++ "' already exists") }, fs1)
          else
            match fs.readFile source_path.segs, fs.mtimeOf source_path.segs with
            | some c, some m =>
              ({ status := "success", destination := some destination },
               fs1.setEntry dest_path.segs (Entry.file c m))
            | _, _ => ({ status := "error", error := some "Failed to copy file" }, fs1)

/-- One matching line reported by a content search. -/
structure MatchLine where
  line_number : Nat
  line_content : String
deriving DecidableEq

/-- One file reported by `search_files`; `match_lines` models the dict key
`matches` (which is a reserved word in Lean). -/
structure SearchHit where
  file : String
  match_type : String
  match_text : Option String := none
  match_lines : List MatchLine := []
deriving DecidableEq

/-- Result structure for `search_files`. -/
structure SearchResult where
  status : String
  error : Option String := none
  results : List SearchHit := []
  total_matches : Nat := 0
  total_files_searched : Nat := 0
deriving DecidableEq

/-- The `*.md` regular files below the documents root with their contents,
in filesystem iteration order (`DOCUMENTS_ROOT.rglob("*.md")`). -/
def mdFilesUnder (root : List String) (fs : FS) : List (List String × String) :=
  fs.entries.filterMap (fun x =>
    match x.2 with
    | Entry.file c _ =>
      if startsSegs root x.1 && strEnds (lastSeg x.1) ".md" then some (x.1, c) else none
    | Entry.dir => none)

/-- The matching lines of a content search: 1-based enumeration of the
file's lines, keeping those containing the lowered query, stripped. -/
def matchingLines (query content : String) : List MatchLine :=
  (numberLines 1 (splitlines content)).filterMap (fun il =>
    if strIn (toLowerStr query) (toLowerStr il.2) then some ⟨il.1, stripStr il.2⟩ else none)

/-- The hit `search_files` appends for a content match on file `pc`. -/
def contentHit (root : List String) (query : String)
    (pc : List String × String) : SearchHit :=
  { file := String.intercalate "/" (pc.1.drop root.length), match_type := "content",
    match_lines := (matchingLines query pc.2).take 5 }

/-- The hit `search_files` appends for a filename match on file `pc`. -/
def filenameHit (root : List String) (pc : List String × String) : SearchHit :=
  { file := String.intercalate "/" (pc.1.drop root.length), match_type := "filename",
    match_text := some (lastSeg pc.1) }

/-- `search_files` from `file_operations.py`. -/
def search_files (root : List String) (fs : FS) (query search_type : String) : SearchResult :=
  if !(search_type == "content" || search_type == "filename") then
    { status := "error",
      error := some ("Invalid search_type '" ++ search_type ++ "'. Use 'content' or 'filename'") }
  else
    let files := mdFilesUnder root fs
    let results := files.filterMap (fun pc =>
      if search_type == "filename" then
        if strIn (toLowerStr query) (toLowerStr (lastSeg pc.1)) then some (filenameHit root pc) else none
      else
        if strIn (toLowerStr query) (toLowerStr pc.2) then some (contentHit root query pc) else none)
    { status := "success", results := results, total_matches := results.length,
      total_files_searched := files.length }

/-- Result structure for `get_file_info`. -/
structure InfoResult where
  status : String
  error : Option String := none
  size_bytes : Option Nat := none
  modified : Option Nat := none
  lines : Option Nat := none
  words : Option Nat := none
  characters : Option Nat := none
  headers : Option Nat := none
  links : Option Nat := none
  code_blocks : Option Nat := none
  is_empty : Option Bool := none
deriving DecidableEq

/-- `get_file_info` from `file_operations.py`: `size_bytes` is the on-disk
`stat().st_size` (UTF-8 bytes), while `characters` is `len(content)`. -/
def get_file_info (root : List String) (fs : FS) (filename : String) : InfoResult :=
  let filename := ensure_markdown_extension filename
  match validate_path root filename with
  | Except.error e => { status := "security_error", error := some e }
  | Except.ok file_path =>
    if !(fs.existsPath file_path.segs) then
      { status := "error", error := some ("File '" ++ filename ++ "' does not exist") }
    else if !(fs.isFile file_path.segs) then
      { status := "error", error := some ("'" ++ filename ++ "' is not a file") }
    else
      match fs.readFile file_path.segs, fs.mtimeOf file_path.segs with
      | some content, some m =>
        let lines := splitlines content
        { status := "success",
          size_bytes := some (utf8Len content),
          modified := some m,
          lines := some lines.length,
          words := some (countWords content),
          characters := some content.length,
          headers := some ((lines.filter (fun l => strStarts (stripStr l) "#")).length),
          links := some ((lines.filter (fun l => strIn "[" l && strIn "](" l)).length),
          code_blocks := some (countSub content "```" / 2),
          is_empty := some (stripStr content == "") }
      | _, _ => { status := "error", error := some "Failed to get file info" }

/-- One entry of `list_recent_files`'s output. -/
structure RecentFile where
  file : String
  modified : Nat
  size : Nat
  days_ago : Nat
deriving DecidableEq

/-- Result structure for `list_recent_files`. -/
structure RecentResult where
  status : String
  error : Option String := none
  days_back : Option Int := none
  total_found : Option Nat := none
  files : List RecentFile := []
deriving DecidableEq

/-- The markdown files below the root whose modification time is at least
`now - days*86400` seconds (the cutoff), unsorted. -/
def recentList (root : List String) (fs : FS) (now : Nat) (days : Int) : List RecentFile :=
  fs.entries.filterMap (fun x =>
    match x.2 with
    | Entry.file c m =>
      if startsSegs root x.1 && strEnds (lastSeg x.1) ".md"
          && decide ((now : Int) - days * 86400 ≤ (m : Int)) then
        some { file := String.intercalate "/" (x.1.drop root.length), modified := m,
               size := utf8Len c, days_ago := (now - m) / 86400 }
      else none
    | Entry.dir => none)

/-- The descending-by-modification-time order used by `list_recent_files`
(Python sorts ascending on the ISO timestamp string with `reverse=True`;
same-era ISO strings compare exactly like the underlying times). -/
def recentSortLe (a b : RecentFile) : Prop := b.modified ≤ a.modified

instance : DecidableRel recentSortLe := fun a b => Nat.decLe b.modified a.modified

instance : IsTotal RecentFile recentSortLe := ⟨fun a b => Nat.le_total b.modified a.modified⟩

instance : IsTrans RecentFile recentSortLe := ⟨fun _ _ _ h1 h2 => Nat.le_trans h2 h1⟩

/-- `list_recent_files` from `file_operations.py` (Python's stable sort is
modelled by insertion sort; the claims only concern sortedness). -/
def list_recent_files (root : List String) (fs : FS) (now : Nat)
    (days limit : Int) : RecentResult :=
  if days < 1 ∨ days > 365 then
    { status := "error", error := some "Days must be between 1 and 365" }
  else if limit < 1 ∨ limit > 100 then
    { status := "error", error := some "Limit must be between 1 and 100" }
  else
    let sorted := List.insertionSort recentSortLe (recentList root fs now days)
    let limited := sorted.take limit.toNat
    { status := "success", days_back := some days, total_found := some limited.length,
      files := limited }

/-- A sample sandbox root (`/srv/documents`) used by concrete witnesses. -/
def rootD : List String := ["srv", "documents"]

/-- A sample well-formed filesystem with two markdown files. -/
def fsA : FS :=
  ⟨[(["srv"], Entry.dir), (["srv", "documents"], Entry.dir),
    (["srv", "documents", "a.md"], Entry.file "hi" 100),
    (["srv", "documents", "b.md"], Entry.file "yo" 50)]⟩

/-- A sample filesystem where `notes` is a directory while `notes.md` is a
file. -/
def fsB : FS :=
  ⟨[(["srv"], Entry.dir), (["srv", "documents"], Entry.dir),
    (["srv", "documents", "notes"], Entry.dir),
    (["srv", "documents", "notes.md"], Entry.file "plan" 10)]⟩

/-- A sample filesystem holding a file whose content has a multi-byte
character. -/
def fsC : FS :=
  ⟨[(["srv"], Entry.dir), (["srv", "documents"], Entry.dir),
    (["srv", "documents", "u.md"], Entry.file "héllo" 5)]⟩

/-- A sample filesystem with three markdown files of which exactly one
contains the substring `todo` (case-insensitively). -/
def fsD : FS :=
  ⟨[(["srv"], Entry.dir), (["srv", "documents"], Entry.dir),
    (["srv", "documents", "one.md"], Entry.file "alpha\nbeta" 1),
    (["srv", "documents", "two.md"], Entry.file "nothing here" 2),
    (["srv", "documents", "three.md"], Entry.file "x\n- todo: fix\ny" 3)]⟩

/-- No `..` segments: the shape `resolve` guarantees for its output. -/
def NoDD (l : List String) : Prop := ∀ s ∈ l, s ≠ ".."

/-- Filesystem well-formedness: every proper prefix of a stored path is a
directory (true of every real filesystem tree). -/
def FS.WF (fs : FS) : Prop :=
  ∀ x ∈ fs.entries, ∀ n, n < x.1.length → fs.lookup (x.1.take n) = some Entry.dir

instance (fs : FS) : Decidable fs.WF := by
  unfold FS.WF
  infer_instance

theorem resolveSegs_of_noDD : ∀ (l acc : List String), NoDD l → resolveSegs acc l = acc ++ l
  | [], acc, _ => by simp [resolveSegs]
  | s :: t, acc, h => by
    have hs : (s == "..") = false := beq_eq_false_iff_ne.mpr (h s (by simp))
    have ht : NoDD t := fun x hx => h x (List.mem_cons_of_mem _ hx)
    simp only [resolveSegs, hs, Bool.false_eq_true, if_false,
      resolveSegs_of_noDD t (acc ++ [s]) ht, List.append_assoc, List.singleton_append]

theorem noDD_resolveSegs : ∀ (l acc : List String), NoDD acc → NoDD (resolveSegs acc l)
  | [], _, h => by simpa [resolveSegs] using h
  | s :: t, acc, h => by
    by_cases hs : s = ".."
    · subst hs
      simp only [resolveSegs, beq_self_eq_true, if_true]
      exact noDD_resolveSegs t _ (fun x hx => h x ((List.dropLast_sublist acc).subset hx))
    · simp only [resolveSegs, beq_eq_false_iff_ne.mpr hs, Bool.false_eq_true, if_false]
      refine noDD_resolveSegs t _ (fun x hx => ?_)
      rcases List.mem_append.mp hx with h1 | h2
      · exact h x h1
      · simpa using List.mem_singleton.mp h2 ▸ hs

theorem canon_of_noDD {l : List String} (h : NoDD l) : canon l = l := by
  unfold canon
  rw [resolveSegs_of_noDD l [] h, List.nil_append]

theorem noDD_dropLast {l : List String} (h : NoDD l) : NoDD l.dropLast :=
  fun x hx => h x ((List.dropLast_sublist l).subset hx)

theorem validate_path_ok_noDD {root : List String} {f : String} {p : PyPath}
    (h : validate_path root f = Except.ok p) : NoDD p.segs := by
  simp only [validate_path] at h
  split at h
  · cases h
    exact noDD_resolveSegs _ [] (fun x hx => absurd hx (List.not_mem_nil x))
  · cases h

theorem validate_path_ok_canon {root : List String} {f : String} {p : PyPath}
    (h : validate_path root f = Except.ok p) : canon p.segs = p.segs :=
  canon_of_noDD (validate_path_ok_noDD h)

theorem lookup_setEntry_self (fs : FS) (p : List String) (e : Entry) (h : canon p ≠ []) :
    (fs.setEntry p e).lookup (canon p) = some e := by
  simp [FS.setEntry, FS.lookup, h, List.find?]

theorem find?_filter_of_ne {p k : List String} (l : List (List String × Entry)) (h : p ≠ k) :
    List.find? (fun x => x.1 == p) (l.filter (fun x => !(x.1 == k)))
      = List.find? (fun x => x.1 == p) l := by
  induction l with
  | nil => rfl
  | cons a t ih =>
    by_cases ha : a.1 = k
    · have h1 : (a.1 == k) = true := beq_iff_eq.mpr ha
      have h2 : (a.1 == p) = false := beq_eq_false_iff_ne.mpr (ha ▸ fun hk => h hk.symm)
      simp [List.filter_cons, h1, List.find?_cons, h2, ih]
    · have h1 : (a.1 == k) = false := beq_eq_false_iff_ne.mpr ha
      by_cases hp : a.1 = p
      · have h2 : (a.1 == p) = true := beq_iff_eq.mpr hp
        simp [List.filter_cons, h1, List.find?_cons, h2]
      · have h2 : (a.1 == p) = false := beq_eq_false_iff_ne.mpr hp
        simp [List.filter_cons, h1, List.find?_cons, h2, ih]

theorem lookup_setEntry_ne (fs : FS) (p q : List String) (e : Entry) (h : q ≠ canon p) :
    (fs.setEntry p e).lookup q = fs.lookup q := by
  by_cases hq : q = []
  · simp [FS.setEntry, FS.lookup, hq]
  · have hne : (canon p == q) = false := beq_eq_false_iff_ne.mpr (fun hk => h hk.symm)
    simp only [FS.setEntry, FS.lookup, hq, if_false]
    rw [List.find?_cons]
    simp only [hne]
    rw [find?_filter_of_ne _ (fun hk => h hk)]

theorem lookup_mem_entries {fs : FS} {p : List String} {e : Entry}
    (hp : p ≠ []) (h : fs.lookup p = some e) : (p, e) ∈ fs.entries := by
  simp only [FS.lookup, hp, if_false] at h
  cases hf : List.find? (fun x => x.1 == p) fs.entries with
  | none => rw [hf] at h; cases h
  | some x =>
    rw [hf] at h
    have hx1 : x.1 = p := by
      have := List.find?_some hf
      simpa using this
    have hmem := List.mem_of_find?_eq_some hf
    have hx2 : x.2 = e := Option.some.inj h
    have : (p, e) = x := by rw [← hx1, ← hx2]
    rw [this]
    exact hmem

theorem WF_prefix_dir {fs : FS} (hw : fs.WF) {p : List String} {e : Entry}
    (h : fs.lookup p = some e) : ∀ n, n < p.length → fs.lookup (p.take n) = some Entry.dir := by
  by_cases hp : p = []
  · subst hp; intro n hn; simp at hn
  · exact fun n hn => hw _ (lookup_mem_entries hp h) n hn

theorem mkdirSeq_of_dirs {fs : FS} (rest : List String) :
    ∀ pref : List String,
      (∀ k, k < rest.length → fs.lookup (pref ++ rest.take (k + 1)) = some Entry.dir) →
      mkdirSeq fs pref rest = some fs := by
  induction rest with
  | nil => intro pref _; rfl
  | cons s t ih =>
    intro pref h
    have h0 : fs.lookup (pref ++ [s]) = some Entry.dir := by
      have := h 0 (by simp)
      simpa using this
    simp only [mkdirSeq, h0]
    exact ih (pref ++ [s]) (fun k hk => by
      have := h (k + 1) (by simpa using Nat.succ_lt_succ hk)
      simpa [List.take_succ_cons, List.append_assoc] using this)

theorem mkdirSeq_lookup_long (q rest : List String) :
    ∀ (pref : List String) (fs fs' : FS), NoDD pref → NoDD rest →
      mkdirSeq fs pref rest = some fs' → (pref ++ rest).length < q.length →
      fs'.lookup q = fs.lookup q := by
  induction rest with
  | nil =>
    intro pref fs fs' _ _ h _
    simp only [mkdirSeq] at h
    cases h
    rfl
  | cons s t ih =>
    intro pref fs fs' hp hst h hlen
    have hps : NoDD (pref ++ [s]) := by
      intro x hx
      rcases List.mem_append.mp hx with h1 | h2
      · exact hp x h1
      · exact (List.mem_singleton.mp h2) ▸ hst s (by simp)
    have htt : NoDD t := fun x hx => hst x (List.mem_cons_of_mem _ hx)
    have hlen' : ((pref ++ [s]) ++ t).length < q.length := by
      simp only [List.length_append, List.length_cons, List.length_nil] at hlen ⊢
      omega
    simp only [mkdirSeq] at h
    cases hl : fs.lookup (pref ++ [s]) with
    | some e =>
      cases e with
      | dir =>
        rw [hl] at h
        exact ih (pref ++ [s]) fs fs' hps htt h hlen'
      | file c m => rw [hl] at h; cases h
    | none =>
      rw [hl] at h
      rw [ih (pref ++ [s]) _ fs' hps htt h hlen']
      apply lookup_setEntry_ne
      rw [canon_of_noDD hps]
      intro he
      rw [he] at hlen'
      rw [List.length_append] at hlen'
      omega

theorem mkdirParents_exists_noop {fs : FS} (hw : fs.WF) {d : List String} (hnd : NoDD d)
    {fs1 : FS} (hm : fs.mkdirParents d.dropLast = some fs1)
    (hex : fs1.existsPath d = true) : fs1 = fs := by
  have hc : canon d.dropLast = d.dropLast := canon_of_noDD (noDD_dropLast hnd)
  have hcd : canon d = d := canon_of_noDD hnd
  cases hE : fs.lookup d with
  | some e =>
    have hdirs := WF_prefix_dir hw hE
    have hfs : fs.mkdirParents d.dropLast = some fs := by
      unfold FS.mkdirParents
      rw [hc]
      apply mkdirSeq_of_dirs
      intro k hk
      have hk' : k < d.length - 1 := by
        have := List.length_dropLast d
        omega
      have h1 : d.dropLast.take (k + 1) = d.take (k + 1) := by
        rw [List.dropLast_eq_take, List.take_take]
        congr 1
        omega
      rw [List.nil_append, h1]
      exact hdirs (k + 1) (by omega)
    rw [hfs] at hm
    exact (Option.some.inj hm).symm
  | none =>
    have hne : d ≠ [] := by
      intro h0
      rw [h0] at hE
      simp [FS.lookup] at hE
    have hpos : 0 < d.length := List.length_pos.mpr hne
    have hlen : (([] : List String) ++ d.dropLast).length < d.length := by
      simp only [List.nil_append, List.length_dropLast]
      omega
    have hm' : mkdirSeq fs [] d.dropLast = some fs1 := by
      unfold FS.mkdirParents at hm
      rwa [hc] at hm
    have hsame := mkdirSeq_lookup_long d d.dropLast [] fs fs1
      (fun x hx => absurd hx (List.not_mem_nil x)) (noDD_dropLast hnd) hm' hlen
    unfold FS.existsPath at hex
    rw [hcd, hsame, hE] at hex
    cases hex

theorem getLastD_ne_dd : ∀ (l : List String) (d : String), NoDD l → d ≠ ".." →
    l.getLastD d ≠ ".."
  | [], d, _, hd => hd
  | a :: t, d, h, _ => by
    rw [List.getLastD_cons]
    exact getLastD_ne_dd t a (fun x hx => h x (List.mem_cons_of_mem _ hx)) (h a (by simp))

theorem lastSeg_ne_dd {l : List String} (h : NoDD l) : lastSeg l ≠ ".." :=
  getLastD_ne_dd l "" h (by decide)

theorem moveFinish_no_effect {root : List String} {fs : FS} {sp dest : PyPath}
    (hw : fs.WF) (hnd : NoDD dest.segs)
    (hns : (moveFinish root fs sp dest).1.status ≠ "success") :
    (moveFinish root fs sp dest).2 = fs := by
  simp only [moveFinish] at hns ⊢
  cases hrel : relative_to dest root with
  | none => simp [hrel]
  | some rel =>
    simp only [hrel] at hns ⊢
    cases hvr : validate_path root rel with
    | error e => simp [hvr]
    | ok w =>
      simp only [hvr] at hns ⊢
      cases hm : fs.mkdirParents dest.segs.dropLast with
      | none => simp [hm]
      | some fs1 =>
        simp only [hm] at hns ⊢
        by_cases hex : fs1.existsPath dest.segs = true
        · simp only [hex, if_true]
          exact mkdirParents_exists_noop hw hnd hm hex
        · simp [hex] at hns

/-- C1: the spec requires segment-boundary-aware containment: with sandbox
root `/app/docs`, the input `../docsEVIL/x.md` resolves to
`/app/docsEVIL/x.md`, which lies outside the root subtree, yet
`validate_path` accepts it because the naive string-prefix test passes.
The code diverges from the specified behaviour (SecurityError). -/
theorem validate_path_accepts_boundary_escape :
    validate_path ["app", "docs"] "../docsEVIL/x.md"
      = Except.ok { absolute := true, segs := ["app", "docsEVIL", "x.md"] }
    ∧ startsSegs ["app", "docs"] ["app", "docsEVIL", "x.md"] = false := by
  exact ⟨rfl, by decide⟩

/-- C2 counterexample: `../documentsX/secret.md` resolves outside the sandbox
root `/srv/documents` (the root's segments are not a prefix of the resolved
segments), yet `validate_path` returns it as a resolved path instead of
raising `SecurityError`, refuting the claim as stated. -/
theorem validate_path_escape_not_rejected :
    validate_path ["srv", "documents"] "../documentsX/secret.md"
      = Except.ok { absolute := true, segs := ["srv", "documentsX", "secret.md"] }
    ∧ startsSegs ["srv", "documents"] ["srv", "documentsX", "secret.md"] = false := by
  exact ⟨rfl, by decide⟩

/-- C2 (amended): for every relative path whose canonical resolution against
the sandbox root lands outside the root subtree AND whose canonical string
form does not begin with the root's canonical string form (this covers `..`
traversals and absolute-path overrides that leave the root's string prefix),
`validate_path` returns `SecurityError` and never a resolved path. -/
theorem validate_path_rejects_nonroot_resolution
    (root : List String) (P : String)
    (hout : startsSegs root
      (resolvePath (joinPath { absolute := true, segs := root } (parsePath P))).segs = false)
    (hstr : strStarts
      (pathStr (resolvePath (joinPath { absolute := true, segs := root } (parsePath P))))
      (pathStr (resolvePath { absolute := true, segs := root })) = false) :
    validate_path root P
      = Except.error ("Invalid path '" ++ P ++ "': Access denied: Path '"
          ++ P ++ "' is outside documents folder") := by
  unfold validate_path
  simp only [hstr, if_false, Bool.false_eq_true]

/-- Witness for the amended C2 theorem at the concrete escape
`../../etc/passwd` under root `/srv/documents`. -/
theorem validate_path_rejects_nonroot_resolution_witness :
    validate_path ["srv", "documents"] "../../etc/passwd"
      = Except.error ("Invalid path '../../etc/passwd': Access denied: Path '"
          ++ "../../etc/passwd' is outside documents folder") := by
  have h := validate_path_rejects_nonroot_resolution ["srv", "documents"] "../../etc/passwd"
    (by decide) (by decide)
  exact h.trans rfl

/-- C4: a non-success status means no filesystem effect was applied, for
every mutating operation (`create_file`, `move_file`, `update_file`,
`delete_file`, `rename_file`, `copy_file`).  In particular `create_file`
reporting already-exists leaves the filesystem unchanged — the
parent-directory `mkdir` it runs first is a no-op because an existing
file's ancestors are already directories — and `move_file` changes nothing
on any non-success status, so the source is only ever removed by the
successful relocation and no destination parent directories survive a
destination-already-exists report. -/
theorem mutating_ops_no_partial_effect
    (root : List String) (fs : FS) (now : Nat)
    (filename content source destination mode : String) (hw : fs.WF) :
    ((create_file root fs now filename content).1.status ≠ "success" →
      (create_file root fs now filename content).2 = fs)
    ∧ ((move_file root fs source destination).1.status ≠ "success" →
      (move_file root fs source destination).2 = fs)
    ∧ ((update_file root fs now filename content mode).1.status ≠ "success" →
      (update_file root fs now filename content mode).2 = fs)
    ∧ ((delete_file root fs filename).1.status ≠ "success" →
      (delete_file root fs filename).2 = fs)
    ∧ ((rename_file root fs source destination).1.status ≠ "success" →
      (rename_file root fs source destination).2 = fs)
    ∧ ((copy_file root fs source destination).1.status ≠ "success" →
      (copy_file root fs source destination).2 = fs) := by
  refine ⟨?_, ?_, ?_, ?_, ?_, ?_⟩
  · intro hns
    simp only [create_file] at hns ⊢
    cases hv : validate_path root (ensure_markdown_extension filename) with
    | error e => simp [hv]
    | ok p =>
      simp only [hv] at hns ⊢
      cases hm : fs.mkdirParents p.segs.dropLast with
      | none => simp [hm]
      | some fs1 =>
        simp only [hm] at hns ⊢
        by_cases hex : fs1.existsPath p.segs = true
        · simp only [hex, if_true]
          exact mkdirParents_exists_noop hw (validate_path_ok_noDD hv) hm hex
        · simp [hex] at hns
  · intro hns
    simp only [move_file] at hns ⊢
    cases hv : validate_path root source with
    | error e => simp [hv]
    | ok sp =>
      simp only [hv] at hns ⊢
      by_cases hse : fs.existsPath sp.segs = true
      · simp only [hse, Bool.not_true, Bool.false_eq_true, if_false] at hns ⊢
        cases hvd : validate_path root destination with
        | error e => simp [hvd]
        | ok dp =>
          simp only [hvd] at hns ⊢
          by_cases hdir : (fs.existsPath dp.segs && fs.isDir dp.segs) = true
          · simp only [hdir, if_true] at hns ⊢
            refine moveFinish_no_effect hw ?_ hns
            intro x hx
            rcases List.mem_append.mp hx with h1 | h2
            · exact validate_path_ok_noDD hvd x h1
            · exact (List.mem_singleton.mp h2) ▸ lastSeg_ne_dd (validate_path_ok_noDD hv)
          · simp only [hdir, Bool.false_eq_true, if_false] at hns ⊢
            by_cases hsf : fs.isFile sp.segs = true
            · simp only [hsf, if_true] at hns ⊢
              cases hvd2 : validate_path root (ensure_markdown_extension destination) with
              | error e => simp [hvd2]
              | ok dp2 =>
                simp only [hvd2] at hns ⊢
                exact moveFinish_no_effect hw (validate_path_ok_noDD hvd2) hns
            · simp only [hsf, Bool.false_eq_true, if_false] at hns ⊢
              exact moveFinish_no_effect hw (validate_path_ok_noDD hvd) hns
      · have hse' : fs.existsPath sp.segs = false := by
          simpa using hse
        simp [hse']
  · intro hns
    simp only [update_file] at hns ⊢
    cases hv : validate_path root (ensure_markdown_extension filename) with
    | error e => simp [hv]
    | ok p =>
      simp only [hv] at hns ⊢
      by_cases hex : fs.existsPath p.segs = true
      · simp only [hex, Bool.not_true, Bool.false_eq_true, if_false] at hns ⊢
        by_cases hmv : (!(mode == "replace" || mode == "append" || mode == "prepend")) = true
        · simp [hmv]
        · have hmv' : (!(mode == "replace" || mode == "append" || mode == "prepend")) = false := by
            simpa using hmv
          simp only [hmv', Bool.false_eq_true, if_false] at hns ⊢
          by_cases hrep : (mode == "replace") = true
          · simp only [hrep, if_true] at hns ⊢
            by_cases hif : fs.isFile p.segs = true
            · simp [hif] at hns
            · have hif' : fs.isFile p.segs = false := by simpa using hif
              simp [hif']
          · have hrep' : (mode == "replace") = false := by simpa using hrep
            simp only [hrep', Bool.false_eq_true, if_false] at hns ⊢
            cases hrd : fs.readFile p.segs with
            | none => simp [hrd]
            | some ec => simp [hrd] at hns
      · have hex' : fs.existsPath p.segs = false := by simpa using hex
        simp [hex']
  · intro hns
    simp only [delete_file] at hns ⊢
    cases hv : validate_path root (ensure_markdown_extension filename) with
    | error e => simp [hv]
    | ok p =>
      simp only [hv] at hns ⊢
      by_cases hex : fs.existsPath p.segs = true
      · simp only [hex, Bool.not_true, Bool.false_eq_true, if_false] at hns ⊢
        by_cases hif : fs.isFile p.segs = true
        · simp only [hif, Bool.not_true, Bool.false_eq_true, if_false] at hns ⊢
          cases hrd : fs.readFile p.segs with
          | none => simp [hrd]
          | some c => simp [hrd] at hns
        · have hif' : fs.isFile p.segs = false := by simpa using hif
          simp [hif']
      · have hex' : fs.existsPath p.segs = false := by simpa using hex
        simp [hex']
  · intro hns
    simp only [rename_file] at hns ⊢
    cases hv : validate_path root source with
    | error e => simp [hv]
    | ok op =>
      simp only [hv] at hns ⊢
      by_cases hex : fs.existsPath op.segs = true
      · simp only [hex, Bool.not_true, Bool.false_eq_true, if_false] at hns ⊢
        by_cases hif : fs.isFile op.segs = true
        · simp only [hif, if_true] at hns ⊢
          cases hrel : relative_to (joinPath { absolute := true, segs := op.segs.dropLast }
              (parsePath (ensure_markdown_extension destination))) root with
          | none => simp [hrel]
          | some rel =>
            simp only [hrel] at hns ⊢
            cases hvr : validate_path root rel with
            | error e => simp [hvr]
            | ok w =>
              simp only [hvr] at hns ⊢
              by_cases hexn : fs.existsPath (joinPath ⟨true, op.segs.dropLast⟩
                  (parsePath (ensure_markdown_extension destination))).segs = true
              · simp [hexn]
              · simp [hexn] at hns
        · have hif' : fs.isFile op.segs = false := by simpa using hif
          simp only [hif', Bool.false_eq_true, if_false] at hns ⊢
          cases hrel : relative_to (joinPath { absolute := true, segs := op.segs.dropLast }
              (parsePath destination)) root with
          | none => simp [hrel]
          | some rel =>
            simp only [hrel] at hns ⊢
            cases hvr : validate_path root rel with
            | error e => simp [hvr]
            | ok w =>
              simp only [hvr] at hns ⊢
              by_cases hexn : fs.existsPath (joinPath ⟨true, op.segs.dropLast⟩
                  (parsePath destination)).segs = true
              · simp [hexn]
              · simp [hexn] at hns
      · have hex' : fs.existsPath op.segs = false := by simpa using hex
        simp [hex']
  · intro hns
    simp only [copy_file] at hns ⊢
    cases hv : validate_path root source with
    | error e => simp [hv]
    | ok sp =>
      simp only [hv] at hns ⊢
      by_cases hex : fs.existsPath sp.segs = true
      · simp only [hex, Bool.not_true, Bool.false_eq_true, if_false] at hns ⊢
        by_cases hif : fs.isFile sp.segs = true
        · simp only [hif, Bool.not_true, Bool.false_eq_true, if_false] at hns ⊢
          cases hvd : validate_path root (ensure_markdown_extension destination) with
          | error e => simp [hvd]
          | ok dp =>
            simp only [hvd] at hns ⊢
            cases hm : fs.mkdirParents dp.segs.dropLast with
            | none => simp [hm]
            | some fs1 =>
              simp only [hm] at hns ⊢
              by_cases hexd : fs1.existsPath dp.segs = true
              · simp only [hexd, if_true]
                exact mkdirParents_exists_noop hw (validate_path_ok_noDD hvd) hm hexd
              · have hexd' : fs1.existsPath dp.segs = false := by simpa using hexd
                obtain ⟨c, m, hL⟩ : ∃ c m, fs.lookup (canon sp.segs)
                    = some (Entry.file c m) := by
                  unfold FS.isFile at hif
                  cases hL : fs.lookup (canon sp.segs) with
                  | none => rw [hL] at hif; cases hif
                  | some e =>
                    cases e with
                    | dir => rw [hL] at hif; cases hif
                    | file c m => exact ⟨c, m, rfl⟩
                have hr : fs.readFile sp.segs = some c := by
                  unfold FS.readFile
                  rw [hL]
                have hmt : fs.mtimeOf sp.segs = some m := by
                  unfold FS.mtimeOf
                  rw [hL]
                simp [hexd', hr, hmt] at hns
        · have hif' : fs.isFile sp.segs = false := by simpa using hif
          simp [hif']
      · have hex' : fs.existsPath sp.segs = false := by simpa using hex
        simp [hex']

/-- Witness for C4: on a concrete well-formed filesystem, `create_file` of an
already-existing filename, `move_file` onto an already-existing destination,
and `update_file` with an invalid mode all report a non-success status and
leave the filesystem unchanged. -/
theorem mutating_ops_no_partial_effect_witness :
    (create_file rootD fsA 0 "a" "x").2 = fsA
    ∧ (move_file rootD fsA "a.md" "b.md").2 = fsA
    ∧ (update_file rootD fsA 0 "a" "x" "overwrite").2 = fsA := by
  have h := mutating_ops_no_partial_effect rootD fsA 0 "a" "x" "a.md" "b.md" "overwrite" (by decide)
  exact ⟨h.1 (by decide), h.2.1 (by decide), h.2.2.1 (by decide)⟩

/-- C5: round-tripping succeeds exactly: after a successful
`create_file(n, c)`, `read_file(n)` succeeds with content exactly `c`; after
a successful `update_file(n, c2, mode="replace")`, `read_file(n)` succeeds
with content exactly `c2`. -/
theorem create_update_read_roundtrip :
    (∀ (root : List String) (fs : FS) (now : Nat) (n c : String),
      (create_file root fs now n c).1.status = "success" →
      (read_file root (create_file root fs now n c).2 n).status = "success"
      ∧ (read_file root (create_file root fs now n c).2 n).content = some c)
    ∧ (∀ (root : List String) (fs : FS) (now : Nat) (n c2 : String),
      (update_file root fs now n c2 "replace").1.status = "success" →
      (read_file root (update_file root fs now n c2 "replace").2 n).status = "success"
      ∧ (read_file root (update_file root fs now n c2 "replace").2 n).content = some c2) := by
  constructor
  · intro root fs now n c hs
    simp only [create_file] at hs ⊢
    cases hv : validate_path root (ensure_markdown_extension n) with
    | error e => simp [hv] at hs
    | ok p =>
      simp only [hv] at hs ⊢
      cases hm : fs.mkdirParents p.segs.dropLast with
      | none => simp [hm] at hs
      | some fs1 =>
        simp only [hm] at hs ⊢
        by_cases hex : fs1.existsPath p.segs = true
        · simp [hex] at hs
        · have hexF : fs1.existsPath p.segs = false := by simpa using hex
          simp only [hexF, Bool.false_eq_true, if_false]
          have hne : canon p.segs ≠ [] := by
            intro h0
            unfold FS.existsPath at hexF
            rw [h0] at hexF
            simp [FS.lookup] at hexF
          have hl := lookup_setEntry_self fs1 p.segs (Entry.file c now) hne
          simp only [read_file, hv, FS.existsPath, FS.isFile, FS.readFile, hl]
          simp
  · intro root fs now n c2 hs
    simp only [update_file] at hs ⊢
    cases hv : validate_path root (ensure_markdown_extension n) with
    | error e => simp [hv] at hs
    | ok p =>
      simp only [hv] at hs ⊢
      by_cases hex : fs.existsPath p.segs = true
      · simp only [hex, Bool.not_true, Bool.false_eq_true, if_false] at hs ⊢
        have hmode : ("replace" == "replace" || "replace" == "append"
            || "replace" == "prepend") = true := by decide
        have hrep : ("replace" == "replace") = true := by decide
        simp only [hmode, Bool.not_true, Bool.false_eq_true, if_false, hrep, if_true] at hs ⊢
        by_cases hif : fs.isFile p.segs = true
        · simp only [hif, if_true] at hs ⊢
          have hne : canon p.segs ≠ [] := by
            intro h0
            unfold FS.isFile at hif
            rw [h0] at hif
            simp [FS.lookup] at hif
          have hl := lookup_setEntry_self fs p.segs (Entry.file c2 now) hne
          simp only [read_file, hv]
          simp [FS.existsPath, FS.isFile, FS.readFile, hl]
        · simp [hif] at hs
      · simp [hex] at hs

/-- Witness for C5 at a concrete sandbox: create `notes` with content
`hello`, read it back; replace `a` with `bye`, read it back. -/
theorem create_update_read_roundtrip_witness :
    (read_file rootD (create_file rootD fsA 3 "notes" "hello").2 "notes").content = some "hello"
    ∧ (read_file rootD (update_file rootD fsA 4 "a" "bye" "replace").2 "a").content = some "bye" := by
  exact ⟨(create_update_read_roundtrip.1 rootD fsA 3 "notes" "hello" (by decide)).2,
    (create_update_read_roundtrip.2 rootD fsA 4 "a" "bye" (by decide)).2⟩

/-- C6: on an existing file with content `C`, `update_file` with mode
`append` succeeds and leaves the file containing `C ++ "\n" ++ X`, with mode
`prepend` succeeds and leaves `X ++ "\n" ++ C`, and any mode outside
{replace, append, prepend} yields the invalid-mode domain error with
`status = "error"` and an unchanged filesystem. -/
theorem update_append_prepend_modes
    (root : List String) (fs : FS) (now : Nat) (n X C : String) (p : PyPath)
    (hv : validate_path root (ensure_markdown_extension n) = Except.ok p)
    (hr : fs.readFile p.segs = some C) :
    ((update_file root fs now n X "append").1.status = "success"
      ∧ (update_file root fs now n X "append").2.readFile p.segs = some (C ++ "\n" ++ X))
    ∧ ((update_file root fs now n X "prepend").1.status = "success"
      ∧ (update_file root fs now n X "prepend").2.readFile p.segs = some (X ++ "\n" ++ C))
    ∧ (∀ mode, mode ≠ "replace" → mode ≠ "append" → mode ≠ "prepend" →
      (update_file root fs now n X mode).1.status = "error"
      ∧ (update_file root fs now n X mode).2 = fs) := by
  obtain ⟨m, hL⟩ : ∃ m, fs.lookup (canon p.segs) = some (Entry.file C m) := by
    unfold FS.readFile at hr
    cases hL : fs.lookup (canon p.segs) with
    | none => rw [hL] at hr; cases hr
    | some e =>
      cases e with
      | dir => rw [hL] at hr; cases hr
      | file c m =>
        rw [hL] at hr
        have hc : c = C := by simpa using hr
        subst hc
        exact ⟨m, rfl⟩
  have hne : canon p.segs ≠ [] := by
    intro h0
    rw [h0] at hL
    simp [FS.lookup] at hL
  have hex : fs.existsPath p.segs = true := by
    unfold FS.existsPath
    rw [hL]
    rfl
  refine ⟨?_, ?_, ?_⟩
  · have hl2 := lookup_setEntry_self fs p.segs (Entry.file (C ++ "\n" ++ X) now) hne
    constructor
    · simp [update_file, hv, hex, FS.readFile, hL]
    · simp [update_file, hv, hex, FS.readFile, hL, hl2]
  · have hl2 := lookup_setEntry_self fs p.segs (Entry.file (X ++ "\n" ++ C) now) hne
    constructor
    · simp [update_file, hv, hex, FS.readFile, hL]
    · simp [update_file, hv, hex, FS.readFile, hL, hl2]
  · intro mode h1 h2 h3
    have e1 : (mode == "replace") = false := beq_eq_false_iff_ne.mpr h1
    have e2 : (mode == "append") = false := beq_eq_false_iff_ne.mpr h2
    have e3 : (mode == "prepend") = false := beq_eq_false_iff_ne.mpr h3
    constructor
    · simp [update_file, hv, hex, e1, e2, e3]
    · simp [update_file, hv, hex, e1, e2, e3]

/-- Witness for C6 at a concrete sandbox: append and prepend to `a.md`
(content `hi`), and an invalid mode `overwrite` is rejected without
touching the filesystem. -/
theorem update_append_prepend_modes_witness :
    ((update_file rootD fsA 7 "a" "there" "append").1.status = "success"
      ∧ (update_file rootD fsA 7 "a" "there" "append").2.readFile
          ["srv", "documents", "a.md"] = some ("hi" ++ "\n" ++ "there"))
    ∧ ((update_file rootD fsA 7 "a" "there" "prepend").2.readFile
          ["srv", "documents", "a.md"] = some ("there" ++ "\n" ++ "hi"))
    ∧ ((update_file rootD fsA 7 "a" "there" "overwrite").1.status = "error"
      ∧ (update_file rootD fsA 7 "a" "there" "overwrite").2 = fsA) := by
  have h := update_append_prepend_modes rootD fsA 7 "a" "there" "hi"
    { absolute := true, segs := ["srv", "documents", "a.md"] } rfl (by decide)
  exact ⟨⟨h.1.1, h.1.2⟩, h.2.1.2, h.2.2 "overwrite" (by decide) (by decide) (by decide)⟩

/-- C3 counterexample: with `a.md` present, `rename_file("a.md", "/tmp/x")`
computes the escaping new path `/tmp/x.md` (an absolute `new_name` overrides
the join), yet reports the generic `status = "error"` — not
`security_error` — because `new_path.relative_to(DOCUMENTS_ROOT)` raises
`ValueError`, which the generic `except Exception` handler catches. -/
theorem rename_file_absolute_escape_generic_error :
    (rename_file rootD fsA "a.md" "/tmp/x").1
      = { status := "error",
          error := some "Failed to rename: path is not in the subpath of the documents root" }
    ∧ startsSegs rootD ["tmp", "x.md"] = false := by
  exact ⟨rfl, by decide⟩

/-- C3 (amended): `move_file` reports `security_error` whenever the
destination argument fails sandbox validation (absolute destinations
included), and `rename_file` reports `security_error` when a relative
`new_name` makes the computed new path fail re-validation; but when
`new_name` is an absolute path outside the root, `relative_to` raises
`ValueError` and the failure surfaces as the generic `status = "error"`
instead. -/
theorem rename_move_escape_status :
    (∀ (root : List String) (fs : FS) (source destination : String) (e : String) (sp : PyPath),
      validate_path root source = Except.ok sp → fs.existsPath sp.segs = true →
      validate_path root destination = Except.error e →
      (move_file root fs source destination).1.status = "security_error")
    ∧ (∀ (root : List String) (fs : FS) (old_name new_name : String)
        (op : PyPath) (rel e : String),
      validate_path root old_name = Except.ok op → fs.existsPath op.segs = true →
      fs.isFile op.segs = true →
      relative_to (joinPath { absolute := true, segs := op.segs.dropLast }
        (parsePath (ensure_markdown_extension new_name))) root = some rel →
      validate_path root rel = Except.error e →
      (rename_file root fs old_name new_name).1.status = "security_error")
    ∧ (∀ (root : List String) (fs : FS) (old_name new_name : String) (op : PyPath),
      validate_path root old_name = Except.ok op → fs.existsPath op.segs = true →
      fs.isFile op.segs = true →
      relative_to (joinPath { absolute := true, segs := op.segs.dropLast }
        (parsePath (ensure_markdown_extension new_name))) root = none →
      (rename_file root fs old_name new_name).1.status = "error") := by
  refine ⟨?_, ?_, ?_⟩
  · intro root fs source destination e sp hv hex hvd
    simp [move_file, hv, hex, hvd]
  · intro root fs old_name new_name op rel e hv hex hif hrel hvr
    simp [rename_file, hv, hex, hif, hrel, hvr]
  · intro root fs old_name new_name op hv hex hif hrel
    simp [rename_file, hv, hex, hif, hrel]

/-- Witness for the amended C3 theorem: absolute destination for
`move_file` → `security_error`; relative `..` escape for `rename_file` →
`security_error`; absolute `new_name` for `rename_file` → generic
`error`. -/
theorem rename_move_escape_status_witness :
    (move_file rootD fsA "a.md" "/tmp/z").1.status = "security_error"
    ∧ (rename_file rootD fsA "a.md" "../esc").1.status = "security_error"
    ∧ (rename_file rootD fsA "b.md" "/tmp/q").1.status = "error" := by
  refine ⟨?_, ?_, ?_⟩
  · exact rename_move_escape_status.1 rootD fsA "a.md" "/tmp/z"
      ("Invalid path '/tmp/z': Access denied: Path '/tmp/z' is outside documents folder")
      { absolute := true, segs := ["srv", "documents", "a.md"] } rfl (by decide) rfl
  · exact rename_move_escape_status.2.1 rootD fsA "a.md" "../esc"
      { absolute := true, segs := ["srv", "documents", "a.md"] } "../esc.md"
      ("Invalid path '../esc.md': Access denied: Path '../esc.md' is outside documents folder")
      rfl (by decide) (by decide) rfl rfl
  · exact rename_move_escape_status.2.2 rootD fsA "b.md" "/tmp/q"
      { absolute := true, segs := ["srv", "documents", "b.md"] } rfl (by decide) (by decide) rfl

theorem strEnds_append_md (f : String) : strEnds (f ++ ".md") ".md" = true := by
  unfold strEnds
  rw [String.data_append, List.reverse_append]
  have h1 : ".md".data.reverse = ['d', 'm', '.'] := rfl
  rw [h1]
  simp [startsWithChars]

theorem ensure_md_idem (f : String) :
    ensure_markdown_extension (ensure_markdown_extension f) = ensure_markdown_extension f := by
  unfold ensure_markdown_extension
  by_cases h : strEnds f ".md" = true
  · simp [h]
  · have h' : strEnds f ".md" = false := by simpa using h
    simp [h', strEnds_append_md f]

/-- C9 counterexample: with `notes` an existing directory and `notes.md` an
existing file, `copy_file("notes", "dest")` reports the is-not-a-file domain
error, not the source-does-not-exist error the claim promises for every
suffixless `name`, refuting the claim as universally stated. -/
theorem copy_file_source_not_normalized_counterexample :
    fsB.isFile ["srv", "documents", "notes.md"] = true
    ∧ (copy_file rootD fsB "notes" "dest").1
      = { status := "error", error := some ("'" ++ "notes" ++ "' is not a file") }
    ∧ (copy_file rootD fsB "notes" "dest").1.error
      ≠ some ("Source file '" ++ "notes" ++ "' does not exist") := by
  exact ⟨by decide, rfl, by decide⟩

/-- C9 (amended): `copy_file` applies the silent `.md` normalization only to
its destination argument, never to its source: whenever the raw source names
no existing entry — even if `source + ".md"` exists — the result is the
source-does-not-exist error with the filesystem unchanged, and the result of
`copy_file` is identical to calling it with the already-normalized
destination. -/
theorem copy_file_dest_only_normalization :
    (∀ (root : List String) (fs : FS) (source destination : String) (sp : PyPath),
      validate_path root source = Except.ok sp → fs.existsPath sp.segs = false →
      copy_file root fs source destination
        = ({ status := "error",
             error := some ("Source file '" ++ source ++ "' does not exist") }, fs))
    ∧ (∀ (root : List String) (fs : FS) (source destination : String),
      copy_file root fs source destination
        = copy_file root fs source (ensure_markdown_extension destination)) := by
  constructor
  · intro root fs source destination sp hv hex
    simp [copy_file, hv, hex]
  · intro root fs source destination
    simp only [copy_file, ensure_md_idem]

/-- Witness for the amended C9 theorem: in `fsA` the file `a.md` exists but
the raw name `a` names nothing, so `copy_file("a", "c")` reports
source-does-not-exist; and copying with destination `c` behaves exactly as
with `c.md`. -/
theorem copy_file_dest_only_normalization_witness :
    copy_file rootD fsA "a" "c"
      = ({ status := "error",
           error := some ("Source file '" ++ "a" ++ "' does not exist") }, fsA)
    ∧ copy_file rootD fsA "a.md" "c" = copy_file rootD fsA "a.md" "c.md" := by
  constructor
  · exact copy_file_dest_only_normalization.1 rootD fsA "a" "c"
      { absolute := true, segs := ["srv", "documents", "a"] } rfl (by decide)
  · exact (copy_file_dest_only_normalization.2 rootD fsA "a.md" "c").trans (by rfl)

theorem length_le_utf8Len (l : List Char) : l.length ≤ (l.map Char.utf8Size).sum := by
  induction l with
  | nil => simp
  | cons a t ih =>
    simp only [List.length_cons, List.map_cons, List.sum_cons]
    have := Char.utf8Size_pos a
    omega

theorem length_lt_utf8Len {l : List Char} (h : ∃ ch ∈ l, 2 ≤ ch.utf8Size) :
    l.length < (l.map Char.utf8Size).sum := by
  induction l with
  | nil =>
    rcases h with ⟨ch, hm, _⟩
    cases hm
  | cons a t ih =>
    rcases h with ⟨ch, hm, hs⟩
    rcases List.mem_cons.mp hm with h1 | h2
    · have hle := length_le_utf8Len t
      simp only [List.length_cons, List.map_cons, List.sum_cons]
      rw [h1] at hs
      omega
    · have hlt := ih ⟨ch, h2, hs⟩
      have ha := Char.utf8Size_pos a
      simp only [List.length_cons, List.map_cons, List.sum_cons]
      omega

/-- C10: a successful `read_file` reports `size = len(content)` — a count of
decoded characters — while `get_file_info` reports `size_bytes` and
`delete_file` reports `deleted_size` as the on-disk UTF-8 byte size of the
same content; when the content has a multi-byte character the two
necessarily differ (`len(content) < byte size`). -/
theorem read_size_chars_not_bytes :
    ∀ (root : List String) (fs : FS) (n c : String),
      (read_file root fs n).content = some c →
      (read_file root fs n).size = some c.length
      ∧ (get_file_info root fs n).size_bytes = some (utf8Len c)
      ∧ (delete_file root fs n).1.deleted_size = some (utf8Len c)
      ∧ ((∃ ch ∈ c.data, 2 ≤ ch.utf8Size) → c.length < utf8Len c) := by
  intro root fs n c hc
  have hineq : (∃ ch ∈ c.data, 2 ≤ ch.utf8Size) → c.length < utf8Len c := by
    intro h
    have h2 := length_lt_utf8Len h
    have hlen : c.length = c.data.length := rfl
    have hu : utf8Len c = (c.data.map Char.utf8Size).sum := rfl
    rw [hlen, hu]
    exact h2
  simp only [read_file] at hc
  cases hv : validate_path root (ensure_markdown_extension n) with
  | error e => rw [hv] at hc; simp at hc
  | ok p =>
    simp only [hv] at hc
    by_cases hex : fs.existsPath p.segs = true
    · simp only [hex, Bool.not_true, Bool.false_eq_true, if_false] at hc
      by_cases hif : fs.isFile p.segs = true
      · simp only [hif, Bool.not_true, Bool.false_eq_true, if_false] at hc
        cases hr : fs.readFile p.segs with
        | none => rw [hr] at hc; simp at hc
        | some c0 =>
          rw [hr] at hc
          have hc0 : c0 = c := by simpa using hc
          subst hc0
          obtain ⟨m, hL⟩ : ∃ m, fs.lookup (canon p.segs) = some (Entry.file c0 m) := by
            unfold FS.readFile at hr
            cases hL : fs.lookup (canon p.segs) with
            | none => rw [hL] at hr; cases hr
            | some e =>
              cases e with
              | dir => rw [hL] at hr; cases hr
              | file cx mx =>
                rw [hL] at hr
                have hcx : cx = c0 := by simpa using hr
                subst hcx
                exact ⟨mx, rfl⟩
          have hmt : fs.mtimeOf p.segs = some m := by
            unfold FS.mtimeOf
            rw [hL]
          refine ⟨?_, ?_, ?_, hineq⟩
          · simp [read_file, hv, hex, hif, hr]
          · simp [get_file_info, hv, hex, hif, hr, hmt]
          · simp [delete_file, hv, hex, hif, hr]
      · simp [hif] at hc
    · simp [hex] at hc

/-- Witness for C10 on a file containing `héllo` (`é` is two UTF-8 bytes):
`read_file` reports 5 characters while `get_file_info` reports 6 bytes. -/
theorem read_size_chars_not_bytes_witness :
    (read_file rootD fsC "u").size = some ("héllo".length)
    ∧ (get_file_info rootD fsC "u").size_bytes = some (utf8Len "héllo")
    ∧ "héllo".length < utf8Len "héllo" := by
  have h := read_size_chars_not_bytes rootD fsC "u" "héllo" (by decide)
  exact ⟨h.1, h.2.1, h.2.2.2 ⟨'é', by decide, by decide⟩⟩

theorem numberLines_mem : ∀ (ls : List String) (i : Nat) (p : Nat × String),
    p ∈ numberLines i ls → i ≤ p.1 ∧ p.1 - i < ls.length ∧ ls.get? (p.1 - i) = some p.2 := by
  intro ls
  induction ls with
  | nil => intro i p hp; cases hp
  | cons l t ih =>
    intro i p hp
    rcases List.mem_cons.mp hp with h1 | h2
    · subst h1
      refine ⟨le_refl i, by simp, by simp⟩
    · obtain ⟨ha, hb, hg⟩ := ih (i + 1) p h2
      refine ⟨by omega, by simp only [List.length_cons]; omega, ?_⟩
      have hk : p.1 - i = (p.1 - (i + 1)) + 1 := by omega
      rw [hk]
      simpa using hg

theorem matchingLines_mem {q c : String} {m : MatchLine} (hm : m ∈ matchingLines q c) :
    1 ≤ m.line_number ∧ m.line_number - 1 < (splitlines c).length
    ∧ ∃ l, (splitlines c).get? (m.line_number - 1) = some l
        ∧ strIn (toLowerStr q) (toLowerStr l) = true ∧ m.line_content = stripStr l := by
  unfold matchingLines at hm
  rcases List.mem_filterMap.mp hm with ⟨il, hin, hcond⟩
  by_cases hq : strIn (toLowerStr q) (toLowerStr il.2) = true
  · simp only [hq, if_true] at hcond
    obtain ⟨ha, hb, hg⟩ := numberLines_mem (splitlines c) 1 il hin
    have hm2 : m = ⟨il.1, stripStr il.2⟩ := (Option.some.inj hcond).symm
    subst hm2
    exact ⟨ha, hb, il.2, hg, hq, rfl⟩
  · simp only [hq] at hcond
    simp at hcond

/-- C7: `search_files` scans all markdown files below the sandbox root; with
`search_type = "content"` (and likewise `"filename"`) the status is
`success` even when no file matches; a file is reported exactly when the
lowered query occurs in its lowered content (content mode) or lowered
filename (filename mode); and every content hit carries at most five
matching lines, each identified by a 1-based line number pointing at a line
that contains the query case-insensitively. -/
theorem search_files_spec :
    (∀ (root : List String) (fs : FS) (q st : String), st = "content" ∨ st = "filename" →
      (search_files root fs q st).status = "success")
    ∧ (∀ (root : List String) (fs : FS) (q : String) (pc : List String × String),
      pc ∈ mdFilesUnder root fs → strIn (toLowerStr q) (toLowerStr pc.2) = true →
      contentHit root q pc ∈ (search_files root fs q "content").results)
    ∧ (∀ (root : List String) (fs : FS) (q : String) (h : SearchHit),
      h ∈ (search_files root fs q "content").results →
      ∃ pc ∈ mdFilesUnder root fs, strIn (toLowerStr q) (toLowerStr pc.2) = true
        ∧ h = contentHit root q pc
        ∧ h.match_lines.length ≤ 5
        ∧ ∀ m ∈ h.match_lines, 1 ≤ m.line_number
            ∧ m.line_number - 1 < (splitlines pc.2).length
            ∧ ∃ l, (splitlines pc.2).get? (m.line_number - 1) = some l
                ∧ strIn (toLowerStr q) (toLowerStr l) = true ∧ m.line_content = stripStr l)
    ∧ (∀ (root : List String) (fs : FS) (q : String) (pc : List String × String),
      pc ∈ mdFilesUnder root fs → strIn (toLowerStr q) (toLowerStr (lastSeg pc.1)) = true →
      filenameHit root pc ∈ (search_files root fs q "filename").results)
    ∧ (∀ (root : List String) (fs : FS) (q : String) (h : SearchHit),
      h ∈ (search_files root fs q "filename").results →
      ∃ pc ∈ mdFilesUnder root fs, strIn (toLowerStr q) (toLowerStr (lastSeg pc.1)) = true
        ∧ h = filenameHit root pc) := by
  refine ⟨?_, ?_, ?_, ?_, ?_⟩
  · intro root fs q st hst
    rcases hst with h | h <;> subst h <;> simp [search_files]
  · intro root fs q pc hpc hstr
    simp only [search_files]
    simp only [show (!("content" == "content" || "content" == "filename")) = false by decide,
      Bool.false_eq_true, if_false]
    exact List.mem_filterMap.mpr ⟨pc, hpc, by simp [hstr]⟩
  · intro root fs q h hmem
    simp only [search_files] at hmem
    simp only [show (!("content" == "content" || "content" == "filename")) = false by decide,
      Bool.false_eq_true, if_false] at hmem
    rcases List.mem_filterMap.mp hmem with ⟨pc, hpc, hcond⟩
    simp only [show ("content" == "filename") = false by decide, Bool.false_eq_true,
      if_false] at hcond
    by_cases hs : strIn (toLowerStr q) (toLowerStr pc.2) = true
    · simp only [hs, if_true] at hcond
      refine ⟨pc, hpc, hs, (Option.some.inj hcond).symm, ?_, ?_⟩
      · have he : h = contentHit root q pc := (Option.some.inj hcond).symm
        subst he
        simp only [contentHit]
        rw [List.length_take]
        omega
      · intro m hm
        have he : h = contentHit root q pc := (Option.some.inj hcond).symm
        subst he
        simp only [contentHit] at hm
        exact matchingLines_mem ((List.take_sublist 5 _).subset hm)
    · simp only [hs] at hcond
      simp at hcond
  · intro root fs q pc hpc hstr
    simp only [search_files]
    simp only [show (!("filename" == "content" || "filename" == "filename")) = false by decide,
      Bool.false_eq_true, if_false]
    exact List.mem_filterMap.mpr ⟨pc, hpc, by simp [hstr]⟩
  · intro root fs q h hmem
    simp only [search_files] at hmem
    simp only [show (!("filename" == "content" || "filename" == "filename")) = false by decide,
      Bool.false_eq_true, if_false] at hmem
    rcases List.mem_filterMap.mp hmem with ⟨pc, hpc, hcond⟩
    simp only [show ("filename" == "filename") = true by decide, if_true] at hcond
    by_cases hs : strIn (toLowerStr q) (toLowerStr (lastSeg pc.1)) = true
    · simp only [hs, if_true] at hcond
      exact ⟨pc, hpc, hs, (Option.some.inj hcond).symm⟩
    · simp only [hs] at hcond
      simp at hcond

/-- Witness for C7, the spec's Scenario D: searching `TODO` over three files
of which only `three.md` contains `todo` yields a success result whose hit
names that file, with exactly one total match. -/
theorem search_files_spec_witness :
    (search_files rootD fsD "TODO" "content").status = "success"
    ∧ contentHit rootD "TODO" (["srv", "documents", "three.md"], "x\n- todo: fix\ny")
        ∈ (search_files rootD fsD "TODO" "content").results
    ∧ (search_files rootD fsD "TODO" "content").total_matches = 1 := by
  refine ⟨search_files_spec.1 rootD fsD "TODO" "content" (Or.inl rfl), ?_, by decide⟩
  exact search_files_spec.2.1 rootD fsD "TODO"
    (["srv", "documents", "three.md"], "x\n- todo: fix\ny") (by decide) (by decide)

/-- C8: `list_recent_files` returns the domain error status `error` exactly
when `days` is outside 1–365 or `limit` is outside 1–100 (never an
exception — the result is always a plain structure); for in-range arguments
it succeeds with the window's markdown files: some permutation of the
modification-window file list, sorted descending by modification time, then
truncated to at most `limit` entries. -/
theorem list_recent_files_range_and_sort :
    (∀ (root : List String) (fs : FS) (now : Nat) (days limit : Int),
      ((list_recent_files root fs now days limit).status = "error"
        ↔ (days < 1 ∨ days > 365 ∨ limit < 1 ∨ limit > 100)))
    ∧ (∀ (root : List String) (fs : FS) (now : Nat) (days limit : Int),
      1 ≤ days → days ≤ 365 → 1 ≤ limit → limit ≤ 100 →
      (list_recent_files root fs now days limit).status = "success"
      ∧ (list_recent_files root fs now days limit).files.length ≤ limit.toNat
      ∧ List.Sorted recentSortLe (list_recent_files root fs now days limit).files
      ∧ ∃ all, all.Perm (recentList root fs now days)
          ∧ List.Sorted recentSortLe all
          ∧ (list_recent_files root fs now days limit).files
              = all.take limit.toNat) := by
  constructor
  · intro root fs now days limit
    by_cases h1 : days < 1 ∨ days > 365
    · have hs : (list_recent_files root fs now days limit).status = "error" := by
        simp [list_recent_files, h1]
      rw [hs]
      simp only [true_iff, iff_true]
      tauto
    · by_cases h2 : limit < 1 ∨ limit > 100
      · have hs : (list_recent_files root fs now days limit).status = "error" := by
          simp [list_recent_files, h1, h2]
        rw [hs]
        simp only [true_iff, iff_true]
        tauto
      · have hs : (list_recent_files root fs now days limit).status = "success" := by
          simp [list_recent_files, h1, h2]
        rw [hs]
        constructor
        · intro hfalse
          exact absurd hfalse (by decide)
        · intro hor
          rcases hor with h | h | h | h
          · exact absurd (Or.inl h) h1
          · exact absurd (Or.inr h) h1
          · exact absurd (Or.inl h) h2
          · exact absurd (Or.inr h) h2
  · intro root fs now days limit ha hb hc hd
    have h1 : ¬(days < 1 ∨ days > 365) := by omega
    have h2 : ¬(limit < 1 ∨ limit > 100) := by omega
    have hsorted := List.sorted_insertionSort recentSortLe (recentList root fs now days)
    refine ⟨?_, ?_, ?_, ?_⟩
    · simp [list_recent_files, h1, h2]
    · simp only [list_recent_files, h1, if_false, h2]
      rw [List.length_take]
      omega
    · simp only [list_recent_files, h1, if_false, h2]
      exact List.Pairwise.sublist (List.take_sublist _ _) hsorted
    · refine ⟨List.insertionSort recentSortLe (recentList root fs now days),
        List.perm_insertionSort recentSortLe (recentList root fs now days), hsorted, ?_⟩
      simp [list_recent_files, h1, h2]

/-- Witness for C8, the spec's Scenario E: `days = 0` yields the range
domain error, while the in-range call succeeds. -/
theorem list_recent_files_range_and_sort_witness :
    (list_recent_files rootD fsA 1000000 0 10).status = "error"
    ∧ (list_recent_files rootD fsA 1000000 7 10).status = "success" := by
  constructor
  · exact (list_recent_files_range_and_sort.1 rootD fsA 1000000 0 10).mpr
      (Or.inl (by decide))
  · exact (list_recent_files_range_and_sort.2 rootD fsA 1000000 7 10
      (by decide) (by decide) (by decide) (by decide)).1
